import Mathlib

/-!
# Shallow embedding of `menu_rs` (`src/lib.rs`)

`menu_rs` is a small Rust library for interactive command-line menus.  A
`Menu` owns an ordered list of `MenuOption`s (label, optional hint, boxed
action closure) and a signed selection index `selected_option : i32`.
`Menu::show` hides the cursor, draws the menu, runs `Menu::menu_navigation`
(a blocking key-read loop with wrap-around Up/Down movement, Enter to
confirm, Escape to cancel via the sentinel `-1`), then clears the screen,
flushes, and — unless the sentinel is set — invokes the selected option's
action.

The embedding below models:
* actions abstractly, as values of a type parameter `α` (invoking the
  action of an option is the observable event `TermEvent.invokeAction a`);
* the terminal collaborator (`console::Term`) as an event trace: every
  call the code makes on the terminal becomes one `TermEvent`;
* the key input stream as a list of `KeyRead` values, each either a key
  or an I/O error (what `Term::read_key` returned on that loop iteration);
* `i32` values as `Int`.  The one place where fixed-width arithmetic is
  behaviourally relevant — the `usize` underflow of `options.len() - 1`
  on an empty option list — is modelled explicitly by `options_limit_num`
  returning `Except` (Rust panics there with overflow checks on); the
  `i32 as usize` cast at the dispatch site is modelled by `usizeOfI32`
  with an explicit `% 2^64`.

A run of `Menu::show` is a function from the input stream to a
`ShowResult`: `done events` for a completed run, `blocked` when the input
stream is exhausted while the loop is still waiting on `read_key`, and
`panicked` when the code would panic (empty-list underflow, or an
out-of-bounds `Vec` index at dispatch).
-/

namespace MenuRs

/-- Keys, as seen by the `match key` in `Menu::menu_navigation`.  The code
handles `ArrowUp`, `ArrowDown`, `Escape`, `Enter` and ignores everything
else (`_ => {}`); the remaining constructors model the other variants of
`console::Key` that fall into that catch-all arm. -/
inductive Key where
  | arrowUp
  | arrowDown
  | escape
  | enter
  | arrowLeft
  | arrowRight
  | char (c : Char)
  | backspace
  | tab
  | unknown
deriving DecidableEq, Repr

/-- One result of `Term::read_key`: a key, or an I/O error (`Err(_e)`). -/
inductive KeyRead where
  | ok (k : Key)
  | err
deriving DecidableEq, Repr

/-- The `console::Style` collaborator, modelled as the list of decorations
applied to it (purely presentational; assumed-correct external surface). -/
structure Style where
  decorations : List String
deriving DecidableEq, Repr

/-- `Style::new()`. -/
def Style.new : Style := ⟨[]⟩

/-- `Style::on_blue()`. -/
def Style.on_blue (s : Style) : Style := ⟨s.decorations ++ ["on_blue"]⟩

/-- `Style::color256(c)`. -/
def Style.color256 (s : Style) (c : Nat) : Style :=
  ⟨s.decorations ++ ["color256 " ++ toString c]⟩

/-- `Style::bold()`. -/
def Style.bold (s : Style) : Style := ⟨s.decorations ++ ["bold"]⟩

/-- `Style::apply_to(text)`: a styled span, rendered here as the
decoration markers followed by the text. -/
def Style.apply_to (s : Style) (text : String) : String :=
  String.join (s.decorations.map (fun d => "[" ++ d ++ "]")) ++ text

/-- A menu option (`struct MenuOption`).  The boxed action closure
`func : Box<dyn FnMut()>` is modelled as an abstract value of type `α`. -/
structure MenuOption (α : Type) where
  label : String
  func : α
  hint : Option String
deriving DecidableEq, Repr

/-- The menu (`struct Menu`).  `selected_option : i32` is modelled as `Int`. -/
structure Menu (α : Type) where
  title : Option String
  options : List (MenuOption α)
  selected_option : Int
  selected_style : Style
  normal_style : Style
  hint_style : Style
deriving DecidableEq, Repr

/-- `MenuOption::new(label, func)`. -/
def MenuOption.new {α : Type} (label : String) (func : α) : MenuOption α :=
  { label := label, func := func, hint := none }

/-- `MenuOption::hint(self, text)` — the hint builder (named `with_hint`
here because the field projection already takes the source name). -/
def MenuOption.with_hint {α : Type} (o : MenuOption α) (text : String) : MenuOption α :=
  { o with hint := some text }

/-- `Menu::new(options)`. -/
def Menu.new {α : Type} (options : List (MenuOption α)) : Menu α :=
  { title := none
    options := options
    selected_option := 0
    normal_style := Style.new
    selected_style := Style.new.on_blue
    hint_style := Style.new.color256 187 }

/-- `Menu::title(self, text)` — the title builder (named `with_title`
here because the field projection already takes the source name). -/
def Menu.with_title {α : Type} (m : Menu α) (text : String) : Menu α :=
  { m with title := some text }

/-- Observable events of a run: every call the code makes on the terminal
collaborator, the `println!` diagnostic, and the invocation of an option's
action (carrying the action value of type `α`). -/
inductive TermEvent (α : Type) where
  | hideCursor
  | showCursor
  | clearScreen
  | writeLine (s : String)
  | flush
  | printLine (s : String)
  | invokeAction (a : α)
deriving DecidableEq, Repr

/-- Whether an event is an action invocation. -/
def TermEvent.isInvoke {α : Type} : TermEvent α → Bool
  | TermEvent.invokeAction _ => true
  | _ => false

/-- The Rust cast `x as usize` applied to an `i32` value: sign-extension
to 64 bits reinterpreted as unsigned. -/
def usizeOfI32 (x : Int) : Nat := (x % (2 : Int) ^ 64).toNat

/-- The `format!("{: <25}", label)` left-justified padding to width 25. -/
def padTo25 (s : String) : String :=
  s ++ String.mk (List.replicate (25 - s.length) ' ')

/-- `Menu::draw_menu`: clear the screen, write the (bold, indented) title
line if present, write one formatted line per option — the row whose
enumeration index equals `selected_option as usize` gets `selected_style`,
the others `normal_style`, hints always `hint_style` — then flush. -/
def Menu.draw_menu {α : Type} (m : Menu α) : List (TermEvent α) :=
  let titleLines : List (TermEvent α) :=
    match m.title with
    | some text => [TermEvent.writeLine ("  " ++ Style.new.bold.apply_to text)]
    | none => []
  let option_idx : Nat := usizeOfI32 m.selected_option
  let optionLines : List (TermEvent α) :=
    (m.options.enum).map (fun p =>
      let label_style := if p.1 = option_idx then m.selected_style else m.normal_style
      let label := label_style.apply_to p.2.label
      let hint_str : String :=
        match p.2.hint with
        | some hint => hint
        | none => ""
      let hint := m.hint_style.apply_to hint_str
      TermEvent.writeLine ("- " ++ padTo25 label ++ "\t" ++ hint))
  TermEvent.clearScreen :: titleLines ++ optionLines ++ [TermEvent.flush]

/-- Which branch of `Menu::menu_navigation` returned (ghost observability;
the Rust function returns `()` and communicates through `selected_option`). -/
inductive ExitKind where
  | enterKey
  | escapeKey
  | readError
deriving DecidableEq, Repr

/-- The arms of the `match key` that fall through to the redraw: the
wrap-around Up/Down updates of `selected_option` and the ignoring
catch-all.  (`Escape` and `Enter` return from the loop instead and are
handled directly in `menu_navigation_loop`.) -/
def key_step (options_limit_num : Int) (sel : Int) : Key → Int
  | Key.arrowUp => if sel = 0 then options_limit_num else sel - 1
  | Key.arrowDown => if sel = options_limit_num then 0 else sel + 1
  | _ => sel

/-- The `loop` body of `Menu::menu_navigation`, state-passed: `sel` is the
current `selected_option`, `inputs` the pending results of `read_key`.
Returns `none` when the input list is exhausted while the loop would still
block on `read_key`; otherwise the final `selected_option`, the branch
that returned, and the terminal events emitted by the loop.  `m0` carries
the fields (title, options, styles) that the redraws read. -/
def menu_navigation_loop {α : Type} (m0 : Menu α) (options_limit_num : Int) :
    Int → List KeyRead → Option (Int × ExitKind × List (TermEvent α))
  | _, [] => none
  | sel, KeyRead.err :: _ =>
      some (sel, ExitKind.readError, [TermEvent.printLine "Error reading key"])
  | _, KeyRead.ok Key.escape :: _ =>
      some (-1, ExitKind.escapeKey, [TermEvent.showCursor])
  | sel, KeyRead.ok Key.enter :: _ =>
      some (sel, ExitKind.enterKey, [TermEvent.showCursor])
  | sel, KeyRead.ok k :: rest =>
      let sel' := key_step options_limit_num sel k
      match menu_navigation_loop m0 options_limit_num sel' rest with
      | none => none
      | some (f, e, evs) =>
          some (f, e, ({ m0 with selected_option := sel' } : Menu α).draw_menu ++ evs)

/-- The computation `let options_limit_num: i32 = (self.options.len() - 1) as i32;`.
The `usize` subtraction underflows when the option list is empty (a panic
with overflow checks on), modelled as `Except.error`. -/
def options_limit_num (len : Nat) : Except Unit Int :=
  if 1 ≤ len then Except.ok ((len : Int) - 1) else Except.error ()

/-- `Menu::menu_navigation`: compute the wrap boundary (which underflows
on an empty option list), then run the key loop from the current
`selected_option`. -/
def Menu.menu_navigation {α : Type} (m : Menu α) (inputs : List KeyRead) :
    Except Unit (Option (Int × ExitKind × List (TermEvent α))) :=
  match options_limit_num m.options.length with
  | Except.error e => Except.error e
  | Except.ok limit =>
      Except.ok (menu_navigation_loop m limit m.selected_option inputs)

/-- Result of a run of `Menu::show`. -/
inductive ShowResult (α : Type) where
  | panicked
  | blocked
  | done (events : List (TermEvent α))
deriving DecidableEq, Repr

/-- `Menu::show`: hide the cursor, clear the screen, draw the menu, run the
navigation loop, clear the screen and flush, then return if the sentinel
`-1` is set, else invoke the action of `options[selected_option as usize]`
(an out-of-bounds index there would panic). -/
def Menu.show {α : Type} (m : Menu α) (inputs : List KeyRead) : ShowResult α :=
  let pre : List (TermEvent α) :=
    TermEvent.hideCursor :: TermEvent.clearScreen :: m.draw_menu
  match m.menu_navigation inputs with
  | Except.error _ => ShowResult.panicked
  | Except.ok none => ShowResult.blocked
  | Except.ok (some (finalSel, _, navEvs)) =>
      let post : List (TermEvent α) := [TermEvent.clearScreen, TermEvent.flush]
      if finalSel = -1 then
        ShowResult.done (pre ++ navEvs ++ post)
      else
        match m.options[usizeOfI32 finalSel]? with
        | none => ShowResult.panicked
        | some option =>
            ShowResult.done (pre ++ navEvs ++ post ++ [TermEvent.invokeAction option.func])

/-! ## Unfolding lemmas for the navigation loop -/

lemma loop_nil {α : Type} (m0 : Menu α) (L sel : Int) :
    menu_navigation_loop m0 L sel [] = none := rfl

lemma loop_cons_err {α : Type} (m0 : Menu α) (L sel : Int) (rest : List KeyRead) :
    menu_navigation_loop m0 L sel (KeyRead.err :: rest) =
      some (sel, ExitKind.readError, [TermEvent.printLine "Error reading key"]) := rfl

lemma loop_cons_escape {α : Type} (m0 : Menu α) (L sel : Int) (rest : List KeyRead) :
    menu_navigation_loop m0 L sel (KeyRead.ok Key.escape :: rest) =
      some (-1, ExitKind.escapeKey, [TermEvent.showCursor]) := rfl

lemma loop_cons_enter {α : Type} (m0 : Menu α) (L sel : Int) (rest : List KeyRead) :
    menu_navigation_loop m0 L sel (KeyRead.ok Key.enter :: rest) =
      some (sel, ExitKind.enterKey, [TermEvent.showCursor]) := rfl

lemma loop_cons_step {α : Type} (m0 : Menu α) (L sel : Int) (k : Key) (rest : List KeyRead)
    (hk1 : k ≠ Key.escape) (hk2 : k ≠ Key.enter) :
    menu_navigation_loop m0 L sel (KeyRead.ok k :: rest) =
      match menu_navigation_loop m0 L (key_step L sel k) rest with
      | none => none
      | some (f, e, evs) =>
          some (f, e,
            ({ m0 with selected_option := key_step L sel k } : Menu α).draw_menu ++ evs) := by
  cases k <;> first | rfl | exact absurd rfl hk1 | exact absurd rfl hk2

/-! ## Bounds and invariant lemmas -/

lemma key_step_bounds (n : Nat) (hn : 1 ≤ n) (sel : Int) (k : Key)
    (h0 : 0 ≤ sel) (h1 : sel < (n : Int)) :
    0 ≤ key_step ((n : Int) - 1) sel k ∧ key_step ((n : Int) - 1) sel k < (n : Int) := by
  cases k <;> simp only [key_step] <;> first | (split <;> omega) | omega

/-- Master invariant: starting the loop at a valid index, the final index is
`-1` exactly on the Escape path, and a valid index on every other path. -/
lemma loop_final_inv {α : Type} (m0 : Menu α) (n : Nat) (hn : 1 ≤ n)
    (inputs : List KeyRead) :
    ∀ (sel f : Int) (e : ExitKind) (evs : List (TermEvent α)),
      0 ≤ sel → sel < (n : Int) →
      menu_navigation_loop m0 ((n : Int) - 1) sel inputs = some (f, e, evs) →
      (e = ExitKind.escapeKey ∧ f = -1) ∨
        (0 ≤ f ∧ f < (n : Int) ∧ e ≠ ExitKind.escapeKey) := by
  induction inputs with
  | nil =>
      intro sel f e evs h0 h1 h
      rw [loop_nil] at h
      exact absurd h (by simp)
  | cons head rest ih =>
      intro sel f e evs h0 h1 h
      cases head with
      | err =>
          rw [loop_cons_err] at h
          obtain ⟨hf, he, _⟩ := by simpa using h
          subst hf he
          exact Or.inr ⟨h0, h1, by simp⟩
      | ok k =>
          by_cases hk1 : k = Key.escape
          · subst hk1
            rw [loop_cons_escape] at h
            obtain ⟨hf, he, _⟩ := by simpa using h
            subst hf he
            exact Or.inl ⟨rfl, rfl⟩
          · by_cases hk2 : k = Key.enter
            · subst hk2
              rw [loop_cons_enter] at h
              obtain ⟨hf, he, _⟩ := by simpa using h
              subst hf he
              exact Or.inr ⟨h0, h1, by simp⟩
            · rw [loop_cons_step m0 _ sel k rest hk1 hk2] at h
              cases hrec : menu_navigation_loop m0 ((n : Int) - 1)
                  (key_step ((n : Int) - 1) sel k) rest with
              | none => rw [hrec] at h; exact absurd h (by simp)
              | some r =>
                  obtain ⟨f', e', evs'⟩ := r
                  rw [hrec] at h
                  obtain ⟨hf, he, _⟩ := by simpa using h
                  subst hf he
                  obtain ⟨hb0, hb1⟩ := key_step_bounds n hn sel k h0 h1
                  exact ih (key_step ((n : Int) - 1) sel k) f' e' evs' hb0 hb1 hrec

/-- On the Escape path the final index is always the sentinel `-1`. -/
lemma loop_escape_final {α : Type} (m0 : Menu α) (L : Int) (inputs : List KeyRead) :
    ∀ (sel f : Int) (evs : List (TermEvent α)),
      menu_navigation_loop m0 L sel inputs = some (f, ExitKind.escapeKey, evs) →
      f = -1 := by
  induction inputs with
  | nil =>
      intro sel f evs h
      rw [loop_nil] at h
      exact absurd h (by simp)
  | cons head rest ih =>
      intro sel f evs h
      cases head with
      | err =>
          rw [loop_cons_err] at h
          simp at h
      | ok k =>
          by_cases hk1 : k = Key.escape
          · subst hk1
            rw [loop_cons_escape] at h
            obtain ⟨hf, -⟩ := by simpa using h
            exact hf.symm
          · by_cases hk2 : k = Key.enter
            · subst hk2
              rw [loop_cons_enter] at h
              simp at h
            · rw [loop_cons_step m0 _ sel k rest hk1 hk2] at h
              cases hrec : menu_navigation_loop m0 L (key_step L sel k) rest with
              | none => rw [hrec] at h; exact absurd h (by simp)
              | some r =>
                  obtain ⟨f', e', evs'⟩ := r
                  rw [hrec] at h
                  obtain ⟨hf, he, -⟩ := by simpa using h
                  subst hf he
                  exact ih (key_step L sel k) f' evs' hrec

/-! ## Action invocations never happen inside drawing or the loop -/

lemma draw_menu_filter_invoke {α : Type} (m : Menu α) :
    m.draw_menu.filter TermEvent.isInvoke = [] := by
  cases htitle : m.title <;>
    simp [Menu.draw_menu, htitle, List.filter_append, List.filter_cons, TermEvent.isInvoke,
      List.filter_eq_nil_iff] <;>
    (intro a x x1 _ h; subst h; rfl)

lemma loop_filter_invoke {α : Type} (m0 : Menu α) (L : Int) (inputs : List KeyRead) :
    ∀ (sel f : Int) (e : ExitKind) (evs : List (TermEvent α)),
      menu_navigation_loop m0 L sel inputs = some (f, e, evs) →
      evs.filter TermEvent.isInvoke = [] := by
  induction inputs with
  | nil =>
      intro sel f e evs h
      rw [loop_nil] at h
      exact absurd h (by simp)
  | cons head rest ih =>
      intro sel f e evs h
      cases head with
      | err =>
          rw [loop_cons_err] at h
          obtain ⟨-, -, hevs⟩ := by simpa using h
          subst hevs
          simp [TermEvent.isInvoke]
      | ok k =>
          by_cases hk1 : k = Key.escape
          · subst hk1
            rw [loop_cons_escape] at h
            obtain ⟨-, -, hevs⟩ := by simpa using h
            subst hevs
            simp [TermEvent.isInvoke]
          · by_cases hk2 : k = Key.enter
            · subst hk2
              rw [loop_cons_enter] at h
              obtain ⟨-, -, hevs⟩ := by simpa using h
              subst hevs
              simp [TermEvent.isInvoke]
            · rw [loop_cons_step m0 _ sel k rest hk1 hk2] at h
              cases hrec : menu_navigation_loop m0 L (key_step L sel k) rest with
              | none => rw [hrec] at h; exact absurd h (by simp)
              | some r =>
                  obtain ⟨f', e', evs'⟩ := r
                  rw [hrec] at h
                  obtain ⟨-, -, hevs⟩ := by simpa using h
                  subst hevs
                  rw [List.filter_append, draw_menu_filter_invoke,
                    ih (key_step L sel k) f' e' evs' hrec]
                  rfl

/-! ## Connecting `menu_navigation` and `show` to the loop -/

lemma usizeOfI32_eq_toNat (f : Int) (h0 : 0 ≤ f) (h1 : f < (2 : Int) ^ 64) :
    usizeOfI32 f = f.toNat := by
  unfold usizeOfI32
  rw [Int.emod_eq_of_lt h0 h1]

lemma options_limit_num_ok (len : Nat) (hn : 1 ≤ len) :
    options_limit_num len = Except.ok ((len : Int) - 1) := by
  simp [options_limit_num, hn]

lemma menu_navigation_eq_loop {α : Type} (m : Menu α) (inputs : List KeyRead)
    (hn : 1 ≤ m.options.length) :
    m.menu_navigation inputs =
      Except.ok (menu_navigation_loop m ((m.options.length : Int) - 1)
        m.selected_option inputs) := by
  rw [Menu.menu_navigation, options_limit_num_ok m.options.length hn]

lemma show_of_nav {α : Type} (m : Menu α) (inputs : List KeyRead)
    (f : Int) (e : ExitKind) (navEvs : List (TermEvent α))
    (hn : 1 ≤ m.options.length)
    (h : menu_navigation_loop m ((m.options.length : Int) - 1)
      m.selected_option inputs = some (f, e, navEvs)) :
    m.show inputs =
      if f = -1 then
        ShowResult.done ((TermEvent.hideCursor :: TermEvent.clearScreen :: m.draw_menu)
          ++ navEvs ++ [TermEvent.clearScreen, TermEvent.flush])
      else
        match m.options[usizeOfI32 f]? with
        | none => ShowResult.panicked
        | some option =>
            ShowResult.done ((TermEvent.hideCursor :: TermEvent.clearScreen :: m.draw_menu)
              ++ navEvs ++ [TermEvent.clearScreen, TermEvent.flush,
                TermEvent.invokeAction option.func]) := by
  rw [Menu.show, menu_navigation_eq_loop m inputs hn, h]
  by_cases hf : f = -1
  · simp [hf]
  · simp only [if_neg hf]
    cases hidx : m.options[usizeOfI32 f]? <;> simp [hidx, hf]

/-! ## Wrap-around arithmetic -/

lemma down_step_emod (n : Nat) (hn : 1 ≤ n) (i : Int) (h0 : 0 ≤ i) (h1 : i < (n : Int)) :
    key_step ((n : Int) - 1) i Key.arrowDown = (i + 1) % (n : Int) := by
  simp only [key_step]
  split
  · rename_i h
    rw [h, show ((n : Int) - 1 + 1) = (n : Int) by ring]
    simp
  · rename_i h
    rw [Int.emod_eq_of_lt (by omega) (by omega)]

lemma up_step_emod (n : Nat) (hn : 1 ≤ n) (i : Int) (h0 : 0 ≤ i) (h1 : i < (n : Int)) :
    key_step ((n : Int) - 1) i Key.arrowUp = (i + ((n : Int) - 1)) % (n : Int) := by
  simp only [key_step]
  split
  · rename_i h
    rw [h, zero_add, Int.emod_eq_of_lt (by omega) (by omega)]
  · rename_i h
    rw [show i + ((n : Int) - 1) = (i - 1) + (n : Int) * 1 by ring,
      Int.add_mul_emod_self_left, Int.emod_eq_of_lt (by omega) (by omega)]

lemma down_iter_emod (n : Nat) (hn : 1 ≤ n) (k : Nat) :
    ∀ i : Int, 0 ≤ i → i < (n : Int) →
      (fun s => key_step ((n : Int) - 1) s Key.arrowDown)^[k] i = (i + k) % (n : Int) := by
  induction k with
  | zero =>
      intro i h0 h1
      simpa using (Int.emod_eq_of_lt h0 h1).symm
  | succ k ih =>
      intro i h0 h1
      have hb0 : 0 ≤ (i + 1) % (n : Int) := Int.emod_nonneg _ (by omega)
      have hb1 : (i + 1) % (n : Int) < (n : Int) := Int.emod_lt_of_pos _ (by omega)
      rw [Function.iterate_succ_apply]
      rw [down_step_emod n hn i h0 h1, ih _ hb0 hb1, Int.emod_add_emod]
      congr 1
      push_cast
      ring

lemma up_iter_emod (n : Nat) (hn : 1 ≤ n) (k : Nat) :
    ∀ i : Int, 0 ≤ i → i < (n : Int) →
      (fun s => key_step ((n : Int) - 1) s Key.arrowUp)^[k] i
        = (i + k * ((n : Int) - 1)) % (n : Int) := by
  induction k with
  | zero =>
      intro i h0 h1
      simpa using (Int.emod_eq_of_lt h0 h1).symm
  | succ k ih =>
      intro i h0 h1
      have hb0 : 0 ≤ (i + ((n : Int) - 1)) % (n : Int) := Int.emod_nonneg _ (by omega)
      have hb1 : (i + ((n : Int) - 1)) % (n : Int) < (n : Int) := Int.emod_lt_of_pos _ (by omega)
      rw [Function.iterate_succ_apply]
      rw [up_step_emod n hn i h0 h1, ih _ hb0 hb1, Int.emod_add_emod]
      congr 1
      push_cast
      ring

/-! ## Claim theorems -/

/-- C3: for every `n ≥ 1` and every active index `i` in `[0, n-1]`, the
Up-arrow arm moves to `n-1` when `i = 0` and to `i-1` otherwise, the
Down-arrow arm moves to `0` when `i = n-1` and to `i+1` otherwise, and any
key other than Up/Down/Enter/Escape leaves the selection unchanged;
moreover the navigation loop really applies this transition and redraws
before reading the next key. -/
theorem arrow_transitions {α : Type} (m : Menu α) (n : Nat) (i : Int)
    (hn : 1 ≤ n) (hlen : m.options.length = n) (h0 : 0 ≤ i) (h1 : i ≤ (n : Int) - 1) :
    key_step ((n : Int) - 1) i Key.arrowUp = (if i = 0 then (n : Int) - 1 else i - 1) ∧
    key_step ((n : Int) - 1) i Key.arrowDown = (if i = (n : Int) - 1 then 0 else i + 1) ∧
    (∀ k : Key, k ≠ Key.arrowUp → k ≠ Key.arrowDown → k ≠ Key.enter → k ≠ Key.escape →
      key_step ((n : Int) - 1) i k = i) ∧
    (∀ k : Key, k ≠ Key.enter → k ≠ Key.escape →
      menu_navigation_loop m ((n : Int) - 1) i [KeyRead.ok k, KeyRead.ok Key.enter] =
        some (key_step ((n : Int) - 1) i k, ExitKind.enterKey,
          ({ m with selected_option := key_step ((n : Int) - 1) i k } : Menu α).draw_menu
            ++ [TermEvent.showCursor])) := by
  refine ⟨rfl, rfl, ?_, ?_⟩
  · intro k hk1 hk2 hk3 hk4
    cases k <;> first | rfl | exact absurd rfl hk1 | exact absurd rfl hk2
  · intro k hk2 hk1
    rw [loop_cons_step m _ i k _ hk1 hk2, loop_cons_enter]

/-- Witness for `arrow_transitions` at `n = 3`, `i = 1`. -/
theorem arrow_transitions_witness :
    key_step ((3 : Int) - 1) 1 Key.arrowUp = (if (1 : Int) = 0 then (3 : Int) - 1 else 1 - 1) ∧
    key_step ((3 : Int) - 1) 1 Key.arrowDown
      = (if (1 : Int) = (3 : Int) - 1 then 0 else 1 + 1) ∧
    (∀ k : Key, k ≠ Key.arrowUp → k ≠ Key.arrowDown → k ≠ Key.enter → k ≠ Key.escape →
      key_step ((3 : Int) - 1) 1 k = 1) ∧
    (∀ k : Key, k ≠ Key.enter → k ≠ Key.escape →
      menu_navigation_loop
          (Menu.new [MenuOption.new "a" (0 : Nat), MenuOption.new "b" 1, MenuOption.new "c" 2])
          ((3 : Int) - 1) 1 [KeyRead.ok k, KeyRead.ok Key.enter] =
        some (key_step ((3 : Int) - 1) 1 k, ExitKind.enterKey,
          ({ Menu.new [MenuOption.new "a" (0 : Nat), MenuOption.new "b" 1, MenuOption.new "c" 2]
              with selected_option := key_step ((3 : Int) - 1) 1 k } : Menu Nat).draw_menu
            ++ [TermEvent.showCursor])) :=
  arrow_transitions
    (Menu.new [MenuOption.new "a" (0 : Nat), MenuOption.new "b" 1, MenuOption.new "c" 2])
    3 1 (by decide) (by decide) (by decide) (by decide)

/-- C6: for every `n ≥ 1` and starting index `i` in `[0, n-1]`, applying
the Down-arrow transition `n` times returns to `i`, and so does applying
the Up-arrow transition `n` times (full wrap cycle). -/
theorem wrap_cycle (n : Nat) (i : Int) (hn : 1 ≤ n) (h0 : 0 ≤ i) (h1 : i < (n : Int)) :
    (fun s => key_step ((n : Int) - 1) s Key.arrowDown)^[n] i = i ∧
    (fun s => key_step ((n : Int) - 1) s Key.arrowUp)^[n] i = i := by
  constructor
  · rw [down_iter_emod n hn n i h0 h1,
      show i + (n : Int) = i + (n : Int) * 1 by ring,
      Int.add_mul_emod_self_left, Int.emod_eq_of_lt h0 h1]
  · rw [up_iter_emod n hn n i h0 h1,
      show i + (n : Int) * ((n : Int) - 1) = i + (n : Int) * ((n : Int) - 1) by ring,
      Int.add_mul_emod_self_left, Int.emod_eq_of_lt h0 h1]

/-- Witness for `wrap_cycle` at `n = 4`, `i = 2`. -/
theorem wrap_cycle_witness :
    (fun s => key_step ((4 : Int) - 1) s Key.arrowDown)^[4] 2 = 2 ∧
    (fun s => key_step ((4 : Int) - 1) s Key.arrowUp)^[4] 2 = 2 :=
  wrap_cycle 4 2 (by decide) (by decide) (by decide)

lemma usize_lt_of_valid (N : Nat) (f : Int) (h0 : 0 ≤ f) (h1 : f < (N : Int)) :
    usizeOfI32 f < N := by
  unfold usizeOfI32
  by_cases hN : (N : Int) ≤ (2 : Int) ^ 64
  · rw [Int.emod_eq_of_lt h0 (by omega)]
    omega
  · have hlt : f % (2 : Int) ^ 64 < (2 : Int) ^ 64 := Int.emod_lt_of_pos f (by positivity)
    have hge : 0 ≤ f % (2 : Int) ^ 64 := Int.emod_nonneg f (by positivity)
    omega

/-- C7: the selection index is `0` before the navigation loop starts
(`Menu::new`), every loop transition maps a valid index to a valid index,
and the index the loop ends with is exactly one of: a valid index into
`options`, or the cancellation sentinel `-1`. -/
theorem selection_invariant {α : Type} (opts : List (MenuOption α)) (inputs : List KeyRead)
    (n : Nat) (hn : 1 ≤ n) (hlen : opts.length = n) :
    (Menu.new opts).selected_option = 0 ∧
    (∀ (sel : Int) (k : Key), 0 ≤ sel → sel < (n : Int) →
      0 ≤ key_step ((n : Int) - 1) sel k ∧ key_step ((n : Int) - 1) sel k < (n : Int)) ∧
    (∀ (f : Int) (e : ExitKind) (evs : List (TermEvent α)),
      menu_navigation_loop (Menu.new opts) ((n : Int) - 1) 0 inputs = some (f, e, evs) →
      ((0 ≤ f ∧ f < (n : Int)) ∨ f = -1) ∧ ¬((0 ≤ f ∧ f < (n : Int)) ∧ f = -1)) := by
  refine ⟨rfl, ?_, ?_⟩
  · intro sel k h0 h1
    exact key_step_bounds n hn sel k h0 h1
  · intro f e evs h
    have hres := loop_final_inv (Menu.new opts) n hn inputs 0 f e evs (le_refl 0)
      (by exact_mod_cast hn) h
    rcases hres with ⟨-, hf⟩ | ⟨ha, hb, -⟩
    · exact ⟨Or.inr hf, by omega⟩
    · exact ⟨Or.inl ⟨ha, hb⟩, by omega⟩

/-- Witness for `selection_invariant` with one option and an Enter press. -/
theorem selection_invariant_witness :
    (Menu.new [MenuOption.new "x" (0 : Nat)]).selected_option = 0 ∧
    (∀ (sel : Int) (k : Key), 0 ≤ sel → sel < ((1 : Nat) : Int) →
      0 ≤ key_step (((1 : Nat) : Int) - 1) sel k ∧
        key_step (((1 : Nat) : Int) - 1) sel k < ((1 : Nat) : Int)) ∧
    (∀ (f : Int) (e : ExitKind) (evs : List (TermEvent Nat)),
      menu_navigation_loop (Menu.new [MenuOption.new "x" (0 : Nat)]) (((1 : Nat) : Int) - 1) 0
        [KeyRead.ok Key.enter] = some (f, e, evs) →
      ((0 ≤ f ∧ f < ((1 : Nat) : Int)) ∨ f = -1) ∧
        ¬((0 ≤ f ∧ f < ((1 : Nat) : Int)) ∧ f = -1)) :=
  selection_invariant [MenuOption.new "x" (0 : Nat)] [KeyRead.ok Key.enter] 1
    (by decide) (by decide)

/-- C10: starting the loop at a valid index of a nonempty menu, the run
never panics at the dispatch site: the final index is either the sentinel
`-1` (dispatch skipped) or indexes `options` in bounds; on the
key-read-failure path in particular the index retains its last active
value, which is still in `[0, n-1]`. -/
theorem dispatch_in_bounds {α : Type} (m : Menu α) (inputs : List KeyRead)
    (hn : 1 ≤ m.options.length)
    (h0 : 0 ≤ m.selected_option) (h1 : m.selected_option < (m.options.length : Int)) :
    m.show inputs ≠ ShowResult.panicked ∧
    (∀ (f : Int) (e : ExitKind) (evs : List (TermEvent α)),
      menu_navigation_loop m ((m.options.length : Int) - 1) m.selected_option inputs
        = some (f, e, evs) →
      f = -1 ∨ (m.options[usizeOfI32 f]?).isSome) ∧
    (∀ (f : Int) (evs : List (TermEvent α)),
      menu_navigation_loop m ((m.options.length : Int) - 1) m.selected_option inputs
        = some (f, ExitKind.readError, evs) →
      0 ≤ f ∧ f < (m.options.length : Int)) := by
  have hvalid : ∀ (f : Int) (e : ExitKind) (evs : List (TermEvent α)),
      menu_navigation_loop m ((m.options.length : Int) - 1) m.selected_option inputs
        = some (f, e, evs) →
      f = -1 ∨ (0 ≤ f ∧ f < (m.options.length : Int)) := by
    intro f e evs h
    rcases loop_final_inv m m.options.length hn inputs m.selected_option f e evs h0 h1 h with
      ⟨-, hf⟩ | ⟨ha, hb, -⟩
    · exact Or.inl hf
    · exact Or.inr ⟨ha, hb⟩
  refine ⟨?_, ?_, ?_⟩
  · cases hres : menu_navigation_loop m ((m.options.length : Int) - 1)
        m.selected_option inputs with
    | none =>
        rw [Menu.show, menu_navigation_eq_loop m inputs hn, hres]
        simp
    | some r =>
        obtain ⟨f, e, evs⟩ := r
        rw [show_of_nav m inputs f e evs hn hres]
        rcases hvalid f e evs hres with hf | ⟨ha, hb⟩
        · rw [if_pos hf]
          simp
        · rw [if_neg (by omega)]
          have hidx : usizeOfI32 f < m.options.length := usize_lt_of_valid _ f ha hb
          rw [List.getElem?_eq_getElem hidx]
          simp
  · intro f e evs h
    rcases hvalid f e evs h with hf | ⟨ha, hb⟩
    · exact Or.inl hf
    · refine Or.inr ?_
      rw [List.getElem?_eq_getElem (usize_lt_of_valid _ f ha hb)]
      rfl
  · intro f evs h
    rcases loop_final_inv m m.options.length hn inputs m.selected_option f
        ExitKind.readError evs h0 h1 h with ⟨he, -⟩ | ⟨ha, hb, -⟩
    · exact absurd he (by simp)
    · exact ⟨ha, hb⟩

/-- Witness for `dispatch_in_bounds`: one option, key read fails at once. -/
theorem dispatch_in_bounds_witness :
    (Menu.new [MenuOption.new "w" (5 : Nat)]).show [KeyRead.err] ≠ ShowResult.panicked ∧
    (∀ (f : Int) (e : ExitKind) (evs : List (TermEvent Nat)),
      menu_navigation_loop (Menu.new [MenuOption.new "w" (5 : Nat)])
          (((Menu.new [MenuOption.new "w" (5 : Nat)]).options.length : Int) - 1)
          (Menu.new [MenuOption.new "w" (5 : Nat)]).selected_option [KeyRead.err]
        = some (f, e, evs) →
      f = -1 ∨ ((Menu.new [MenuOption.new "w" (5 : Nat)]).options[usizeOfI32 f]?).isSome) ∧
    (∀ (f : Int) (evs : List (TermEvent Nat)),
      menu_navigation_loop (Menu.new [MenuOption.new "w" (5 : Nat)])
          (((Menu.new [MenuOption.new "w" (5 : Nat)]).options.length : Int) - 1)
          (Menu.new [MenuOption.new "w" (5 : Nat)]).selected_option [KeyRead.err]
        = some (f, ExitKind.readError, evs) →
      0 ≤ f ∧ f < ((Menu.new [MenuOption.new "w" (5 : Nat)]).options.length : Int)) :=
  dispatch_in_bounds (Menu.new [MenuOption.new "w" (5 : Nat)]) [KeyRead.err]
    (by decide) (by decide) (by decide)

/-- C4: pressing Enter while the active index is `sel` terminates the loop
confirmed at `sel`; a run whose loop exits on the Enter path with final
index `f` then invokes exactly the action owned by option `f`, exactly
once, strictly after the terminal cleanup (the trace ends with clear
screen, flush, invoke, and no invocation occurs anywhere earlier).  The
bound `n ≤ 2^31` reflects the `i32` type of the selection index. -/
theorem enter_confirms_and_dispatches {α : Type} (m : Menu α) (inputs : List KeyRead)
    (f : Int) (navEvs : List (TermEvent α)) (n : Nat)
    (hlen : m.options.length = n) (hn : 1 ≤ n) (hn31 : n ≤ 2 ^ 31)
    (hs0 : 0 ≤ m.selected_option) (hs1 : m.selected_option < (n : Int))
    (hnav : menu_navigation_loop m ((n : Int) - 1) m.selected_option inputs
      = some (f, ExitKind.enterKey, navEvs)) :
    (∀ (sel : Int) (rest : List KeyRead),
      menu_navigation_loop m ((n : Int) - 1) sel (KeyRead.ok Key.enter :: rest)
        = some (sel, ExitKind.enterKey, [TermEvent.showCursor])) ∧
    ∃ hf : f.toNat < m.options.length,
      m.show inputs = ShowResult.done
        ((TermEvent.hideCursor :: TermEvent.clearScreen :: m.draw_menu) ++ navEvs
          ++ [TermEvent.clearScreen, TermEvent.flush,
            TermEvent.invokeAction (m.options.get ⟨f.toNat, hf⟩).func]) ∧
      ((TermEvent.hideCursor :: TermEvent.clearScreen :: m.draw_menu) ++ navEvs
          ++ [TermEvent.clearScreen, TermEvent.flush,
            TermEvent.invokeAction (m.options.get ⟨f.toNat, hf⟩).func]).filter
          TermEvent.isInvoke
        = [TermEvent.invokeAction (m.options.get ⟨f.toNat, hf⟩).func] := by
  subst hlen
  have hvalid := loop_final_inv m m.options.length hn inputs m.selected_option f
    ExitKind.enterKey navEvs hs0 hs1 hnav
  rcases hvalid with ⟨he, -⟩ | ⟨ha, hb, -⟩
  · exact absurd he (by simp)
  have hcast : usizeOfI32 f = f.toNat :=
    usizeOfI32_eq_toNat f ha (by
      have h31 : ((2 : Nat) ^ 31 : Int) ≤ (2 : Int) ^ 64 := by norm_num
      have : (m.options.length : Int) ≤ ((2 : Nat) ^ 31 : Int) := by exact_mod_cast hn31
      omega)
  have hf : f.toNat < m.options.length := by
    have := usize_lt_of_valid m.options.length f ha hb
    omega
  refine ⟨fun sel rest => loop_cons_enter m _ sel rest, hf, ?_, ?_⟩
  · rw [show_of_nav m inputs f ExitKind.enterKey navEvs hn hnav,
      if_neg (by omega), hcast, List.getElem?_eq_getElem hf]
    rw [List.get_eq_getElem]
  · rw [List.get_eq_getElem]
    have hnavfilter := loop_filter_invoke m ((m.options.length : Int) - 1) inputs
      m.selected_option f ExitKind.enterKey navEvs hnav
    simp [List.filter_append, List.filter_cons, draw_menu_filter_invoke, hnavfilter,
      TermEvent.isInvoke]

/-- Witness for `enter_confirms_and_dispatches`: one option, Enter at once. -/
theorem enter_confirms_witness :
    (∀ (sel : Int) (rest : List KeyRead),
      menu_navigation_loop (Menu.new [MenuOption.new "Only" (0 : Nat)]) (((1 : Nat) : Int) - 1)
          sel (KeyRead.ok Key.enter :: rest)
        = some (sel, ExitKind.enterKey, [TermEvent.showCursor])) ∧
    ∃ hf : (0 : Int).toNat < (Menu.new [MenuOption.new "Only" (0 : Nat)]).options.length,
      (Menu.new [MenuOption.new "Only" (0 : Nat)]).show [KeyRead.ok Key.enter]
        = ShowResult.done
          ((TermEvent.hideCursor :: TermEvent.clearScreen ::
              (Menu.new [MenuOption.new "Only" (0 : Nat)]).draw_menu)
            ++ [TermEvent.showCursor]
            ++ [TermEvent.clearScreen, TermEvent.flush,
              TermEvent.invokeAction
                ((Menu.new [MenuOption.new "Only" (0 : Nat)]).options.get
                  ⟨(0 : Int).toNat, hf⟩).func]) ∧
      ((TermEvent.hideCursor :: TermEvent.clearScreen ::
            (Menu.new [MenuOption.new "Only" (0 : Nat)]).draw_menu)
          ++ [TermEvent.showCursor]
          ++ [TermEvent.clearScreen, TermEvent.flush,
            TermEvent.invokeAction
              ((Menu.new [MenuOption.new "Only" (0 : Nat)]).options.get
                ⟨(0 : Int).toNat, hf⟩).func]).filter TermEvent.isInvoke
        = [TermEvent.invokeAction
            ((Menu.new [MenuOption.new "Only" (0 : Nat)]).options.get
              ⟨(0 : Int).toNat, hf⟩).func] :=
  enter_confirms_and_dispatches (Menu.new [MenuOption.new "Only" (0 : Nat)])
    [KeyRead.ok Key.enter] 0 [TermEvent.showCursor] 1
    (by decide) (by decide) (by norm_num) (by decide) (by decide) (by decide)

/-- C5: pressing Escape terminates the loop in the cancelled state (the
sentinel `-1`), from any active index; and a run whose loop exits on the
Escape path ends with the sentinel set and invokes no option's action. -/
theorem escape_cancels {α : Type} (m : Menu α) (inputs : List KeyRead)
    (f : Int) (navEvs : List (TermEvent α))
    (hn : 1 ≤ m.options.length)
    (hnav : menu_navigation_loop m ((m.options.length : Int) - 1) m.selected_option inputs
      = some (f, ExitKind.escapeKey, navEvs)) :
    (∀ (sel : Int) (rest : List KeyRead),
      menu_navigation_loop m ((m.options.length : Int) - 1) sel
          (KeyRead.ok Key.escape :: rest)
        = some (-1, ExitKind.escapeKey, [TermEvent.showCursor])) ∧
    f = -1 ∧
    m.show inputs = ShowResult.done
      ((TermEvent.hideCursor :: TermEvent.clearScreen :: m.draw_menu) ++ navEvs
        ++ [TermEvent.clearScreen, TermEvent.flush]) ∧
    ((TermEvent.hideCursor :: TermEvent.clearScreen :: m.draw_menu) ++ navEvs
        ++ [TermEvent.clearScreen, TermEvent.flush]).filter TermEvent.isInvoke = [] := by
  have hf : f = -1 :=
    loop_escape_final m ((m.options.length : Int) - 1) inputs m.selected_option f navEvs hnav
  refine ⟨fun sel rest => loop_cons_escape m _ sel rest, hf, ?_, ?_⟩
  · rw [show_of_nav m inputs f ExitKind.escapeKey navEvs hn hnav, if_pos hf]
  · have hnavfilter := loop_filter_invoke m ((m.options.length : Int) - 1) inputs
      m.selected_option f ExitKind.escapeKey navEvs hnav
    simp [List.filter_append, List.filter_cons, draw_menu_filter_invoke, hnavfilter,
      TermEvent.isInvoke]

/-- Witness for `escape_cancels`: one option, Escape at once. -/
theorem escape_cancels_witness :
    (∀ (sel : Int) (rest : List KeyRead),
      menu_navigation_loop (Menu.new [MenuOption.new "c5" (1 : Nat)])
          (((Menu.new [MenuOption.new "c5" (1 : Nat)]).options.length : Int) - 1) sel
          (KeyRead.ok Key.escape :: rest)
        = some (-1, ExitKind.escapeKey, [TermEvent.showCursor])) ∧
    (-1 : Int) = -1 ∧
    (Menu.new [MenuOption.new "c5" (1 : Nat)]).show [KeyRead.ok Key.escape]
      = ShowResult.done
        ((TermEvent.hideCursor :: TermEvent.clearScreen ::
            (Menu.new [MenuOption.new "c5" (1 : Nat)]).draw_menu)
          ++ [TermEvent.showCursor] ++ [TermEvent.clearScreen, TermEvent.flush]) ∧
    ((TermEvent.hideCursor :: TermEvent.clearScreen ::
          (Menu.new [MenuOption.new "c5" (1 : Nat)]).draw_menu)
        ++ [TermEvent.showCursor]
        ++ [TermEvent.clearScreen, TermEvent.flush]).filter TermEvent.isInvoke = [] :=
  escape_cancels (Menu.new [MenuOption.new "c5" (1 : Nat)]) [KeyRead.ok Key.escape]
    (-1) [TermEvent.showCursor] (by decide) (by decide)

/-- C8: a menu built from an empty option list cannot be run safely: the
wrap-boundary computation `(options.len() - 1) as i32` underflows (so the
run panics in the model), and `n ≥ 1` is exactly the condition under which
that computation is defined. -/
theorem empty_menu_unsafe {α : Type} :
    (∀ inputs : List KeyRead,
      (Menu.new ([] : List (MenuOption α))).show inputs = ShowResult.panicked) ∧
    (∀ len : Nat, (∃ v : Int, options_limit_num len = Except.ok v) ↔ 1 ≤ len) := by
  constructor
  · intro inputs
    rw [Menu.show]
    have : (Menu.new ([] : List (MenuOption α))).menu_navigation inputs = Except.error () := by
      rw [Menu.menu_navigation]
      rfl
    rw [this]
  · intro len
    unfold options_limit_num
    split <;> simp_all

/-- C9: the hint builder changes only the `hint` field of an option (label
and action untouched), and the title builder changes only the `title`
field of a menu (options, selection index, and the three styles
untouched); both are pure transformations of their input value. -/
theorem builders_pure_frame {α : Type} (o : MenuOption α) (m : Menu α) (text : String) :
    (o.with_hint text).hint = some text ∧
    (o.with_hint text).label = o.label ∧
    (o.with_hint text).func = o.func ∧
    (m.with_title text).title = some text ∧
    (m.with_title text).options = m.options ∧
    (m.with_title text).selected_option = m.selected_option ∧
    (m.with_title text).selected_style = m.selected_style ∧
    (m.with_title text).normal_style = m.normal_style ∧
    (m.with_title text).hint_style = m.hint_style :=
  ⟨rfl, rfl, rfl, rfl, rfl, rfl, rfl, rfl, rfl⟩

/-- C1 (divergence evidence): when `read_key` fails on a one-option menu,
the run prints the diagnostic but does NOT behave as if cancelled — the
selection keeps its last active value `0`, so `show` invokes option 0's
action, and the cursor is never shown again. -/
theorem read_error_invokes_action :
    ∃ evs : List (TermEvent Nat),
      (Menu.new [MenuOption.new "Only" (0 : Nat)]).show [KeyRead.err] = ShowResult.done evs ∧
      TermEvent.printLine "Error reading key" ∈ evs ∧
      TermEvent.invokeAction 0 ∈ evs ∧
      TermEvent.showCursor ∉ evs :=
  ⟨_, rfl, by decide, by decide, by decide⟩

/-- C2 (divergence evidence): the cursor-hide at the start of `show` is
paired with a cursor-show on the Enter and Escape exit paths but NOT on
the key-read-failure path: that run ends with the cursor still hidden. -/
theorem read_error_leaves_cursor_hidden :
    (∃ evs : List (TermEvent Nat),
      (Menu.new [MenuOption.new "Opt" (7 : Nat)]).show [KeyRead.err] = ShowResult.done evs ∧
      TermEvent.hideCursor ∈ evs ∧ TermEvent.showCursor ∉ evs) ∧
    (∃ evs : List (TermEvent Nat),
      (Menu.new [MenuOption.new "Opt" (7 : Nat)]).show [KeyRead.ok Key.enter]
        = ShowResult.done evs ∧ TermEvent.showCursor ∈ evs) ∧
    (∃ evs : List (TermEvent Nat),
      (Menu.new [MenuOption.new "Opt" (7 : Nat)]).show [KeyRead.ok Key.escape]
        = ShowResult.done evs ∧ TermEvent.showCursor ∈ evs) :=
  ⟨⟨_, rfl, by decide, by decide⟩, ⟨_, rfl, by decide⟩, ⟨_, rfl, by decide⟩⟩

end MenuRs
